import Mathlib

/-!
Verification of the tg-wp-bridge repository: a bridge that receives Telegram
webhook updates, filters them (chat type, hashtags), renders text to HTML,
uploads attached media to WordPress and creates a WordPress post.

The Python sources are embedded shallowly:

* Python strings are `String` (a wrapper around `List Char`); the Python
  string primitives used by the code (`split()`, `strip()`, `rstrip(chars)`,
  `lstrip(chars)`, `splitlines()`, `split(sep)`, `join`) are modelled below on
  `List Char`.  `splitlines` is modelled for the line terminators
  newline, carriage return and carriage-return/newline (the Python original
  also handles rarer terminators such as form feed; none of the code paths or
  claims depend on those).
* Optional fields become `Option`; Python truthiness of strings, lists and
  optionals is modelled explicitly (`pyOrStrOpt`, emptiness tests).
* The outbound HTTP collaborators (Telegram file API, WordPress REST API) and
  the stdlib lookups `urlparse(...).path` and `mimetypes.guess_type` are
  modelled as an explicit environment `Env` of deterministic functions whose
  results are `Except`-valued where the Python call can raise.
-/

/-- Python whitespace characters recognised by `str.split()` / `str.strip()`
(space, tab, newline, carriage return, vertical tab, form feed). -/
def pyWS : List Char := [' ', '\t', '\n', '\r', '\x0b', '\x0c']

/-- Python `s.lstrip(chars)`: drop the leading run of characters in `S`. -/
def lstripChars (S : List Char) (l : List Char) : List Char :=
  l.dropWhile (fun c => decide (c ∈ S))

/-- Python `s.rstrip(chars)`: drop the trailing run of characters in `S`,
written as a structural recursion (a character is kept unless everything
after it was dropped and it is itself in `S`). -/
def rstripChars (S : List Char) : List Char → List Char
  | [] => []
  | c :: cs =>
    let rest := rstripChars S cs
    if rest = [] ∧ c ∈ S then [] else c :: rest

/-- Python `s.strip()` (no argument): strip `pyWS` from both ends. -/
def pyStrip (l : List Char) : List Char :=
  rstripChars pyWS (lstripChars pyWS l)

/-- Python `s.strip()` on a `String`. -/
def pyStripStr (s : String) : String :=
  String.mk (pyStrip s.data)

/-- Helper for `pySplitWS`: accumulate the current token (reversed) while
scanning; whitespace finishes a token, everything else extends it. -/
def splitWSAux : List Char → List Char → List (List Char)
  | [], acc => if acc = [] then [] else [acc.reverse]
  | c :: cs, acc =>
    if c ∈ pyWS then
      if acc = [] then splitWSAux cs [] else acc.reverse :: splitWSAux cs []
    else splitWSAux cs (c :: acc)

/-- Python `s.split()` (no argument): maximal runs of non-whitespace
characters; never produces empty tokens. -/
def pySplitWS (l : List Char) : List (List Char) :=
  splitWSAux l []

/-- Python `s.splitlines()` for the terminators `\n`, `\r` and `\r\n`. -/
def pySplitlines : List Char → List Char → List (List Char)
  | [], acc => if acc = [] then [] else [acc.reverse]
  | '\r' :: '\n' :: cs, acc => acc.reverse :: pySplitlines cs []
  | '\r' :: cs, acc => acc.reverse :: pySplitlines cs []
  | '\n' :: cs, acc => acc.reverse :: pySplitlines cs []
  | c :: cs, acc => pySplitlines cs (c :: acc)

/-- Python `sep.join(parts)` for a non-empty separator list. -/
def joinSep (sep : List Char) : List (List Char) → List Char
  | [] => []
  | [t] => t
  | t :: ts => t ++ sep ++ joinSep sep ts

/-- Python `s.split("\n")`: split on every newline, keeping empty pieces. -/
def splitNl : List Char → List (List Char)
  | [] => [[]]
  | c :: cs =>
    if c = '\n' then [] :: splitNl cs
    else
      match splitNl cs with
      | [] => [[c]]
      | l :: ls => (c :: l) :: ls

/-- Python `s.split("\n\n")`: split on non-overlapping leftmost occurrences
of a blank-line boundary, keeping empty pieces. -/
def splitParas : List Char → List (List Char)
  | [] => [[]]
  | '\n' :: '\n' :: cs => [] :: splitParas cs
  | c :: cs =>
    match splitParas cs with
    | [] => [[c]]
    | l :: ls => (c :: l) :: ls

/-- Keep the first occurrence of every key, dropping later entries whose key
was already seen (`seen` is the list of keys already emitted). -/
def dedupeByKeyAux {α β : Type} [DecidableEq β] (key : α → β) (seen : List β) :
    List α → List α
  | [] => []
  | x :: xs =>
    if key x ∈ seen then dedupeByKeyAux key seen xs
    else x :: dedupeByKeyAux key (key x :: seen) xs

/-- First-occurrence deduplication. -/
def dedupeByKey {α β : Type} [DecidableEq β] (key : α → β) (l : List α) : List α :=
  dedupeByKeyAux key [] l

/-!
## Telegram data model (`tg_wp_bridge/schemas.py`)

Pydantic models become plain structures; `Optional[...]` fields become
`Option`.  The `extra="allow"` side maps of the pydantic models carry no core
logic and are omitted.
-/

/-- Telegram chat descriptor (`TgChat`). -/
structure TgChat where
  id : Int
  type : String
deriving DecidableEq

/-- One size variant of a photo (`TgPhotoSize`). -/
structure TgPhotoSize where
  file_id : String
  width : Int
  height : Int
deriving DecidableEq

/-- Video attachment (`TgVideo`, a `TgFileBase` with dimensions). -/
structure TgVideo where
  file_id : String
  file_unique_id : Option String := none
  file_name : Option String := none
  mime_type : Option String := none
  width : Option Int := none
  height : Option Int := none
  duration : Option Int := none
deriving DecidableEq

/-- Animation attachment (`TgAnimation`). -/
structure TgAnimation where
  file_id : String
  file_unique_id : Option String := none
  file_name : Option String := none
  mime_type : Option String := none
  width : Option Int := none
  height : Option Int := none
  duration : Option Int := none
deriving DecidableEq

/-- Document attachment (`TgDocument`). -/
structure TgDocument where
  file_id : String
  file_unique_id : Option String := none
  file_name : Option String := none
  mime_type : Option String := none
deriving DecidableEq

/-- Telegram message subset (`TgMessage`). -/
structure TgMessage where
  message_id : Int
  chat : TgChat
  text : Option String := none
  caption : Option String := none
  photo : Option (List TgPhotoSize) := none
  video : Option TgVideo := none
  animation : Option TgAnimation := none
  document : Option TgDocument := none
deriving DecidableEq

/-- Top-level Telegram update (`TelegramUpdate`). -/
structure TelegramUpdate where
  update_id : Int
  message : Option TgMessage := none
  channel_post : Option TgMessage := none
deriving DecidableEq

/-!
## Pure message helpers (`tg_wp_bridge/message_parser.py`)
-/

/-- Python `a or b` on two optional strings: `a` wins unless it is `None` or
the empty string (both falsy), in which case `b` is returned. -/
def pyOrStrOpt (a b : Option String) : Option String :=
  match a with
  | some s => if s = "" then b else some s
  | none => b

/-- Python `a or d` collapsing an optional string to a plain default. -/
def pyOrDefault (o : Option String) (d : String) : String :=
  match o with
  | some s => if s = "" then d else s
  | none => d

/-- `extract_message_entity`: `update.channel_post or update.message`
(model objects are always truthy, `None` is falsy). -/
def extract_message_entity (u : TelegramUpdate) : Option TgMessage :=
  match u.channel_post with
  | some m => some m
  | none => u.message

/-- `extract_message_text`: `msg.text or msg.caption` on the effective
message.  Note the Python `or`: an empty-string `text` is falsy and falls
through to the caption. -/
def extract_message_text (u : TelegramUpdate) : Option String :=
  match extract_message_entity u with
  | none => none
  | some m => pyOrStrOpt m.text m.caption

/-- `find_photo_with_max_size`: `max(msg.photo, key=lambda p: p.width *
p.height)`; Python `max` keeps the first of several maximal elements, so the
fold replaces the candidate only on a strictly larger area. -/
def find_photo_with_max_size (msg : TgMessage) : Option TgPhotoSize :=
  match msg.photo with
  | none => none
  | some [] => none
  | some (p :: ps) =>
    some (ps.foldl
      (fun best q => if best.width * best.height < q.width * q.height then q else best) p)

/-- Punctuation stripped from the end of a hashtag token in the first pass
(Python `.rstrip(".,!?:;)]\x7d")`). -/
def hashtagTrailPunct : List Char := ['.', ',', '!', '?', ':', ';', ')', ']', '}']

/-- Opening punctuation stripped from the front of a hashtag token
(Python `.lstrip("([\x7b")`). -/
def hashtagOpenPunct : List Char := ['(', '[', '{']

/-- Punctuation stripped in the second pass
(Python `.rstrip(".,!?:;)]\x7d([\x7b")`). -/
def hashtagAllPunct : List Char :=
  ['.', ',', '!', '?', ':', ';', ')', ']', '}', '(', '[', '{']

/-- Body of the `extract_hashtags` loop for one whitespace token: keep only
tokens beginning with a hash, strip punctuation in the two passes of the
source, and drop results that are just a hash or shorter than two
characters.  Returns the processed token or `none` for a `continue`. -/
def processHashtagToken (t : List Char) : Option (List Char) :=
  if t.head? = some '#' then
    let t1 := lstripChars hashtagOpenPunct (rstripChars hashtagTrailPunct t)
    if t1.head? = some '#' then
      let t2 := rstripChars hashtagAllPunct t1
      if t2 = ['#'] ∨ t2.length < 2 then none else some t2
    else none
  else none

/-- The `extract_hashtags` loop: `acc` holds the already-emitted hashtags in
reverse order (the Python `seen` set always holds exactly the elements of the
`hashtags` list, so one accumulator models both). -/
def extractHashtagsAux : List (List Char) → List (List Char) → List (List Char)
  | [], acc => acc.reverse
  | t :: ts, acc =>
    match processHashtagToken t with
    | none => extractHashtagsAux ts acc
    | some u =>
      if u ∈ acc then extractHashtagsAux ts acc
      else extractHashtagsAux ts (u :: acc)

/-- `extract_hashtags`: whitespace-tokenise, process every token, keep first
occurrences. -/
def extract_hashtags (text : String) : List String :=
  (extractHashtagsAux (pySplitWS text.data) []).map String.mk

/-- Claim-side description of one hashtag token (built from the claim text of
C7, to be compared with the source embedding): a token starting with a hash
has the surrounding punctuation stripped from both ends and is kept when the
result is neither a lone hash nor shorter than two characters. -/
def claimHashtagToken (t : List Char) : Option (List Char) :=
  if t.head? = some '#' then
    let u := rstripChars hashtagAllPunct (lstripChars hashtagAllPunct t)
    if u = ['#'] ∨ u.length < 2 then none else some u
  else none

/-- Claim-side description of `extract_hashtags` (claim C7): filter and strip
the whitespace tokens, then deduplicate keeping first occurrences. -/
def claimHashtags (text : String) : List String :=
  (dedupeByKey id ((pySplitWS text.data).filterMap claimHashtagToken)).map String.mk

/-- The hashtag-dropping loop of `build_title_from_text`: while `dropping` is
set, words beginning with a hash are skipped; the first other word clears the
flag for good. -/
def dropLeadingHashtagWords (dropping : Bool) : List (List Char) → List (List Char)
  | [] => []
  | w :: ws =>
    if dropping ∧ w.head? = some '#' then dropLeadingHashtagWords dropping ws
    else w :: dropLeadingHashtagWords false ws

/-- The line loop of `build_title_from_text` over the result of
`splitlines`. -/
def buildTitleLines (maxLength : Nat) : List (List Char) → List Char
  | [] => "(no title)".data
  | rawLine :: rest =>
    let line := pyStrip rawLine
    if line = [] then buildTitleLines maxLength rest
    else
      let ws := pySplitWS line
      let filtered := dropLeadingHashtagWords true ws
      let candidate := if filtered = [] then line else joinSep [' '] filtered
      let candidate2 := pyStrip candidate
      if candidate2 = [] then buildTitleLines maxLength rest
      else if maxLength < candidate2.length then candidate2.take maxLength
      else candidate2

/-- `build_title_from_text`: first usable line, leading hashtags dropped,
truncated to `maxLength` (default 60), placeholder fallback. -/
def build_title_from_text (text : String) (maxLength : Nat := 60) : String :=
  String.mk (buildTitleLines maxLength (pySplitlines text.data []))

/-- Claim-side first non-blank (after trimming) line of claim C8. -/
def claimFirstLine : List (List Char) → Option (List Char)
  | [] => none
  | rawLine :: rest =>
    let line := pyStrip rawLine
    if line = [] then claimFirstLine rest else some line

/-- Claim-side description of `build_title_from_text` (claim C8): take the
first non-blank line, drop its leading run of hash-tokens (whole line when
nothing remains), rejoin with single spaces, hard-truncate to `maxLength`,
with the literal placeholder when no non-blank line exists. -/
def claimTitle (text : String) (maxLength : Nat := 60) : String :=
  match claimFirstLine (pySplitlines text.data []) with
  | none => "(no title)"
  | some line =>
    let toks := (pySplitWS line).dropWhile (fun w => decide (w.head? = some '#'))
    let candidate := if toks = [] then line else joinSep [' '] toks
    String.mk (candidate.take maxLength)

/-- One paragraph of `text_to_html`: lines joined with a break tag and
wrapped in paragraph tags. -/
def htmlPara (para : List Char) : List Char :=
  "<p>".data ++ joinSep "<br>".data (splitNl para) ++ "</p>".data

/-- `text_to_html`: strip, short-circuit the empty text, split into
paragraphs on blank lines, render each and concatenate. -/
def text_to_html (text : String) : String :=
  let stripped := pyStrip text.data
  if stripped = [] then "<p></p>"
  else String.mk (List.flatten ((splitParas stripped).map htmlPara))

/-- Claim-side paragraph concatenation of claim C9 (no separator). -/
def claimRenderParas : List (List Char) → List Char
  | [] => []
  | p :: ps => htmlPara p ++ claimRenderParas ps

/-- Claim-side description of `text_to_html` (claim C9). -/
def claimHtml (text : String) : String :=
  let t := pyStrip text.data
  if t = [] then "<p></p>"
  else String.mk (claimRenderParas (splitParas t))

/-!
## Media descriptors

`app.py` and the tests use `message_parser.TelegramMedia` and
`message_parser.collect_supported_media`, but the shipped
`message_parser.py` does not define them; they are modelled from the spec
below.
-/

/-- Normalized view of one attachment (`TelegramMedia`): media kind, source
id, optional filename and MIME type. -/
structure TelegramMedia where
  media_type : String
  file_id : String
  file_name : Option String := none
  mime_type : Option String := none
deriving DecidableEq

/-- Candidate descriptors of a message in the fixed kind order photo, video,
animation, document; the photo list is collapsed to its largest-area variant
by the source-embedded `find_photo_with_max_size`. -/
def mediaCandidates (msg : TgMessage) : List TelegramMedia :=
  (match find_photo_with_max_size msg with
   | some p => [{ media_type := "photo", file_id := p.file_id }]
   | none => []) ++
  (match msg.video with
   | some v => [{ media_type := "video", file_id := v.file_id,
                  file_name := v.file_name, mime_type := v.mime_type }]
   | none => []) ++
  (match msg.animation with
   | some a => [{ media_type := "animation", file_id := a.file_id,
                  file_name := a.file_name, mime_type := a.mime_type }]
   | none => []) ++
  (match msg.document with
   | some d => [{ media_type := "document", file_id := d.file_id,
                  file_name := d.file_name, mime_type := d.mime_type }]
   | none => [])

/-- Modelled from the spec: `collect_supported_media` is called by `app.py`
and asserted on by the tests but missing from the shipped
`message_parser.py`.  Following spec section 4.1: emit at most one descriptor
per kind in the order photo, video, animation, document, the photo collapsed
to its largest width-by-height variant, skipping any descriptor whose source
id was already emitted earlier in the same call (first occurrence wins). -/
def collect_supported_media (msg : TgMessage) : List TelegramMedia :=
  dedupeByKey (fun m => m.file_id) (mediaCandidates msg)

/-!
## Configuration (`tg_wp_bridge/config.py`) and collaborators
-/

/-- Subset of `Settings` read by the update handler and the webhook
endpoint, with the source defaults. -/
structure Settings where
  telegram_webhook_secret : Option String := none
  required_hashtag : Option String := none
  chat_type_allowlist : List String := ["channel"]
  hashtag_allowlist : Option (List String) := none
  hashtag_blocklist : Option (List String) := none
deriving DecidableEq

/-- Exceptions that can surface inside the handler: an `AttributeError` from
attribute access on the wrong runtime type, or any exception raised by an
outbound collaborator call. -/
inductive PyExc where
  | attributeError
  | collaboratorFailure (message : String)
deriving DecidableEq

/-- Deterministic model of the outbound collaborators of `app.py`:
`telegram_api.get_file_direct_url` (may raise, may report not-found as
`none`), `telegram_api.download_file` (may raise),
`wordpress_api.upload_media_to_wp` (may raise before its own try block when
configuration is missing; otherwise returns the new attachment id or `none`
on a caught error — note the bare `Int`, the source returns `media.id`),
`wordpress_api.create_wp_post` (may raise), and the stdlib lookups
`urlparse(...).path` and `mimetypes.guess_type(...)[0]`. -/
structure Env where
  get_file_direct_url : String → Except PyExc (Option String)
  download_file : String → Except PyExc (List Nat)
  upload_media_to_wp : String → String → List Nat → Except PyExc (Option Int)
  create_wp_post : String → String → List Int → Except PyExc Int
  urlparse_path : String → String
  guess_mime_type : String → Option String

/-- `PurePosixPath(path).name`: trailing slashes dropped, then the component
after the last slash. -/
def posixName (path : String) : String :=
  String.mk (((rstripChars ['/'] path.data).reverse.takeWhile
    (fun c => decide (c ≠ '/'))).reverse)

/-- `_filename_from_url` of `app.py`. -/
def filename_from_url (env : Env) (file_url : String) : Option String :=
  let path := env.urlparse_path file_url
  if path = "" then none
  else
    let name := posixName path
    if name = "" then none else some name

/-- `_download_and_upload_media` of `app.py`: try resolving and downloading
(any raise is caught and yields `none`), derive filename and content type,
try uploading (any raise is caught and yields `none`).  The value on success
is the bare attachment id returned by `wordpress_api.upload_media_to_wp`. -/
def download_and_upload_media (env : Env) (media : TelegramMedia) : Option Int :=
  match env.get_file_direct_url media.file_id with
  | .error _ => none
  | .ok none => none
  | .ok (some file_url) =>
    match env.download_file file_url with
    | .error _ => none
    | .ok blob =>
      let synth := "telegram-" ++ media.media_type ++ "-" ++
        String.mk (media.file_id.data.take 8)
      let filename :=
        pyOrDefault (pyOrStrOpt media.file_name (filename_from_url env file_url)) synth
      let content_type :=
        pyOrDefault (pyOrStrOpt media.mime_type (env.guess_mime_type filename))
          "application/octet-stream"
      match env.upload_media_to_wp filename content_type blob with
      | .error _ => none
      | .ok r => r

/-- The media loop of `handle_telegram_update`.  `ids` and `uploaded`
accumulate in reverse.  Python truthiness of the loop test `if media_info:`
makes `None` and `0` falsy; in the truthy branch the source evaluates
`media_info.id`, an attribute access on the bare `int` returned by
`wordpress_api.upload_media_to_wp`, which raises `AttributeError`. -/
def processMediaList (env : Env) :
    List TelegramMedia → List Int → List (TelegramMedia × Int) →
    Except PyExc (List Int × List (TelegramMedia × Int))
  | [], ids, uploaded => .ok (ids.reverse, uploaded.reverse)
  | m :: ms, ids, uploaded =>
    match download_and_upload_media env m with
    | none => processMediaList env ms ids uploaded
    | some n =>
      if n = 0 then processMediaList env ms ids uploaded
      else .error .attributeError

/-- `_build_media_gallery` of `app.py`: every iteration begins with the
attribute access `wp_media.source_url`; the paired value produced by the
media loop is a bare `int`, so a non-empty list raises `AttributeError`,
and the empty list yields the empty markup string. -/
def build_media_gallery : List (TelegramMedia × Int) → Except PyExc String
  | [] => Except.ok ("")
  | _ :: _ => Except.error PyExc.attributeError

/-- Reasons of the silent early returns of `handle_telegram_update`. -/
inductive FilterReason where
  | noMessage
  | chatTypeNotAllowed
  | noContent
  | requiredHashtagMissing
  | noAllowedHashtag
  | blockedHashtag
deriving DecidableEq

/-- Result of a completed `handle_telegram_update`: a silent filter return,
or a created post recording the arguments passed to
`wordpress_api.create_wp_post`. -/
inductive HandleOutcome where
  | filtered (reason : FilterReason)
  | posted (title contentHtml : String) (mediaIds : List Int)
deriving DecidableEq

/-- The handler's effective text: `extract_message_text(update) or ""`. -/
def effText (u : TelegramUpdate) : String :=
  match extract_message_text u with
  | some s => s
  | none => ""

/-- The handler's hashtag list:
`extract_hashtags(text) if text else []`. -/
def effHashtags (u : TelegramUpdate) : List String :=
  if effText u = "" then [] else extract_hashtags (effText u)

/-- Guard of the chat-type filter: a non-empty allowlist that does not
contain the chat type rejects. -/
def chatTypeRejects (st : Settings) (msg : TgMessage) : Bool :=
  decide (st.chat_type_allowlist ≠ [] ∧ msg.chat.type ∉ st.chat_type_allowlist)

/-- Guard of the content filter: no trimmed text and no supported media. -/
def noContentRejects (msg : TgMessage) (text : String) : Bool :=
  decide (pyStripStr text = "" ∧ collect_supported_media msg = [])

/-- Guard of the required-hashtag filter (`if settings.required_hashtag:` is
Python-truthy only for a set, non-empty value). -/
def requiredRejects (st : Settings) (hashtags : List String) : Bool :=
  match st.required_hashtag with
  | some r => decide (r ≠ "" ∧ r ∉ hashtags)
  | none => false

/-- Guard of the hashtag-allowlist filter: configured non-empty and no
extracted hashtag is in it. -/
def allowlistRejects (st : Settings) (hashtags : List String) : Bool :=
  match st.hashtag_allowlist with
  | some al => decide (al ≠ [] ∧ ∀ tag ∈ al, tag ∉ hashtags)
  | none => false

/-- Guard of the hashtag-blocklist filter: configured non-empty and some
extracted hashtag is in it. -/
def blocklistRejects (st : Settings) (hashtags : List String) : Bool :=
  match st.hashtag_blocklist with
  | some bl => decide (bl ≠ [] ∧ ∃ tag ∈ bl, tag ∈ hashtags)
  | none => false

/-- `handle_telegram_update` of `app.py`: resolve the effective message, run
the four content filters in source order, build title and body HTML, run the
sequential media pipeline, append gallery markup and call
`wordpress_api.create_wp_post`. -/
def handle_telegram_update (env : Env) (st : Settings) (update : TelegramUpdate) :
    Except PyExc HandleOutcome :=
  match extract_message_entity update with
  | none => .ok (.filtered .noMessage)
  | some msg =>
    if chatTypeRejects st msg then .ok (.filtered .chatTypeNotAllowed)
    else
      let text := effText update
      if noContentRejects msg text then .ok (.filtered .noContent)
      else
        let hashtags := effHashtags update
        if requiredRejects st hashtags then .ok (.filtered .requiredHashtagMissing)
        else if allowlistRejects st hashtags then .ok (.filtered .noAllowedHashtag)
        else if blocklistRejects st hashtags then .ok (.filtered .blockedHashtag)
        else
          let title := build_title_from_text text 60
          let content_html := if pyStripStr text = "" then "" else text_to_html text
          match processMediaList env (collect_supported_media msg) [] [] with
          | .error e => .error e
          | .ok (media_ids, uploaded) =>
            match build_media_gallery uploaded with
            | .error e => .error e
            | .ok media_markup =>
              let content_html2 :=
                if media_markup = "" then content_html
                else if content_html = "" then media_markup
                else content_html ++ media_markup
              match env.create_wp_post title content_html2 media_ids with
              | .error e => .error e
              | .ok _ => .ok (.posted title content_html2 media_ids)

/-- Responses of the webhook endpoint: 403 Forbidden, or HTTP 200 with
either an ok or an error body. -/
inductive WebhookResult where
  | forbidden
  | okTrue
  | okFalse
deriving DecidableEq

/-- `telegram_webhook` of `app.py`: reject with 403 when a non-empty secret
is configured and the path secret differs; otherwise handle the update,
converting any exception into a 200 response with an error body. -/
def telegram_webhook (env : Env) (st : Settings) (secret : String)
    (update : TelegramUpdate) : WebhookResult :=
  let rejects :=
    match st.telegram_webhook_secret with
    | some expected => decide (expected ≠ "" ∧ secret ≠ expected)
    | none => false
  if rejects then .forbidden
  else
    match handle_telegram_update env st update with
    | .ok _ => .okTrue
    | .error _ => .okFalse

/-!
## Concrete fixtures used by witnesses, counterexamples and evaluations
-/

/-- A channel chat. -/
def chanChat : TgChat := { id := 1, type := "channel" }

/-- Message whose text is set to the empty string next to a caption. -/
def msgTextEmptyCaption : TgMessage :=
  { message_id := 1, chat := chanChat, text := some (""),
    caption := some ("Caption text") }

/-- Update carrying `msgTextEmptyCaption`. -/
def updateTextEmptyCaption : TelegramUpdate :=
  { update_id := 1, message := some msgTextEmptyCaption }

/-- Channel post whose hashtags hit both the allowlist and the blocklist. -/
def msgNewsSpam : TgMessage :=
  { message_id := 2, chat := chanChat, text := some ("#news #spam hello") }

/-- Update carrying `msgNewsSpam`. -/
def updateNewsSpam : TelegramUpdate :=
  { update_id := 2, channel_post := some msgNewsSpam }

/-- Settings with allowlist and blocklist configured. -/
def stAllowBlock : Settings :=
  { hashtag_allowlist := some (["#news"]), hashtag_blocklist := some (["#spam"]) }

/-- A private-chat message (rejected by the default chat-type allowlist). -/
def msgPrivate : TgMessage :=
  { message_id := 3, chat := { id := 5, type := "private" }, text := some ("Hello") }

/-- Update carrying `msgPrivate`. -/
def updatePrivate : TelegramUpdate :=
  { update_id := 3, message := some msgPrivate }

/-- A message with neither media nor attachments. -/
def msgNoMedia : TgMessage :=
  { message_id := 7, chat := chanChat, text := some ("hi") }

/-- Environment in which no collaborator is usable (webhook-level and
filter-level facts never reach them). -/
def envIdle : Env :=
  { get_file_direct_url := fun _ => .error (.collaboratorFailure ("unused")),
    download_file := fun _ => .error (.collaboratorFailure ("unused")),
    upload_media_to_wp := fun _ _ _ => .error (.collaboratorFailure ("unused")),
    create_wp_post := fun _ _ _ => .error (.collaboratorFailure ("unused")),
    urlparse_path := fun _ => "",
    guess_mime_type := fun _ => none }

/-- Channel message with one photo, for the media-failure scenario. -/
def msgOnePhoto : TgMessage :=
  { message_id := 4, chat := chanChat, text := some ("Photo post with error"),
    photo := some [{ file_id := "photo123", width := 100, height := 100 }] }

/-- Update carrying `msgOnePhoto`. -/
def updateOnePhoto : TelegramUpdate :=
  { update_id := 4, message := some msgOnePhoto }

/-- Environment in which Telegram URL resolution raises and post creation
succeeds. -/
def envResolveRaises : Env :=
  { envIdle with
    get_file_direct_url := fun _ => .error (.collaboratorFailure ("telegram api error")),
    create_wp_post := fun _ _ _ => .ok 123 }

/-- Channel message with one photo and one video, for the mixed
failure/success scenario. -/
def msgPhotoVideo : TgMessage :=
  { message_id := 5, chat := chanChat, text := some ("Mixed media post"),
    photo := some [{ file_id := "photo123", width := 100, height := 100 }],
    video := some { file_id := "vid1", file_name := some ("clip.mp4"),
                    mime_type := some ("video/mp4") } }

/-- Update carrying `msgPhotoVideo`. -/
def updatePhotoVideo : TelegramUpdate :=
  { update_id := 5, message := some msgPhotoVideo }

/-- Environment in which the photo's URL resolution raises but the video
resolves, downloads and uploads fine (attachment id 7). -/
def envMixed : Env :=
  { get_file_direct_url := fun fid =>
      if fid = "vid1" then .ok (some ("https://api.telegram.org/file/bot/clip.mp4"))
      else .error (.collaboratorFailure ("telegram api error")),
    download_file := fun _ => .ok [1, 2, 3],
    upload_media_to_wp := fun _ _ _ => .ok (some 7),
    create_wp_post := fun _ _ _ => .ok 55,
    urlparse_path := fun _ => "/file/bot/clip.mp4",
    guess_mime_type := fun _ => some ("video/mp4") }

/-- Channel message with one photo, for the successful-upload scenario. -/
def msgPhotoOk : TgMessage :=
  { message_id := 6, chat := chanChat, text := some ("Photo post"),
    photo := some [{ file_id := "photo123", width := 100, height := 100 }] }

/-- Update carrying `msgPhotoOk`. -/
def updatePhotoOk : TelegramUpdate :=
  { update_id := 6, message := some msgPhotoOk }

/-- Environment in which resolution, download and upload all succeed; the
upload returns attachment id 456. -/
def envUploadOk : Env :=
  { get_file_direct_url := fun _ =>
      .ok (some ("https://api.telegram.org/file/bot/photo.jpg")),
    download_file := fun _ => .ok [1, 2, 3],
    upload_media_to_wp := fun _ _ _ => .ok (some 456),
    create_wp_post := fun _ _ _ => .ok 789,
    urlparse_path := fun _ => "/file/bot/photo.jpg",
    guess_mime_type := fun _ => some ("image/jpeg") }

/-- Settings with a configured webhook secret. -/
def stSecret : Settings := { telegram_webhook_secret := some ("correct_secret") }

set_option maxRecDepth 10000

/-!
## Lemmas about stripping and deduplication
-/

theorem rstripChars_cons (S : List Char) (c : Char) (cs : List Char) :
    rstripChars S (c :: cs) =
      if rstripChars S cs = [] ∧ c ∈ S then [] else c :: rstripChars S cs := rfl

theorem rstripChars_cons_not_mem {S : List Char} {c : Char} (h : c ∉ S)
    (cs : List Char) : rstripChars S (c :: cs) = c :: rstripChars S cs := by
  rw [rstripChars_cons, if_neg (fun hc => h hc.2)]

theorem rstripChars_absorb {S T : List Char} (hST : ∀ c, c ∈ S → c ∈ T) :
    ∀ l : List Char, rstripChars T (rstripChars S l) = rstripChars T l := by
  intro l
  induction l with
  | nil => rfl
  | cons c cs ih =>
    by_cases h : rstripChars S cs = [] ∧ c ∈ S
    · rw [rstripChars_cons S, if_pos h]
      have h2 : rstripChars T cs = [] := by rw [← ih, h.1]; rfl
      rw [rstripChars_cons T, if_pos ⟨h2, hST c h.2⟩]
      rfl
    · rw [rstripChars_cons S, if_neg h, rstripChars_cons T, rstripChars_cons T, ih]

theorem lstripChars_cons_not_mem {S : List Char} {c : Char} (h : c ∉ S)
    (cs : List Char) : lstripChars S (c :: cs) = c :: cs := by
  simp [lstripChars, List.dropWhile_cons, h]

theorem processHashtagToken_eq_claim (t : List Char) :
    processHashtagToken t = claimHashtagToken t := by
  match t with
  | [] => rfl
  | c :: rest =>
    by_cases hc : c = '#'
    · subst hc
      have hTrail : ('#' : Char) ∉ hashtagTrailPunct := by decide
      have hOpen : ('#' : Char) ∉ hashtagOpenPunct := by decide
      have hAll : ('#' : Char) ∉ hashtagAllPunct := by decide
      have hsub : ∀ d : Char, d ∈ hashtagTrailPunct → d ∈ hashtagAllPunct := by decide
      simp [processHashtagToken, claimHashtagToken,
        rstripChars_cons_not_mem hTrail, lstripChars_cons_not_mem hOpen,
        lstripChars_cons_not_mem hAll, rstripChars_cons_not_mem hAll,
        rstripChars_absorb hsub]
    · simp [processHashtagToken, claimHashtagToken, hc]

theorem extractHashtagsAux_eq (ts : List (List Char)) :
    ∀ acc : List (List Char),
      extractHashtagsAux ts acc =
        acc.reverse ++ dedupeByKeyAux id acc (ts.filterMap processHashtagToken) := by
  induction ts with
  | nil => intro acc; simp [extractHashtagsAux, dedupeByKeyAux]
  | cons t ts ih =>
    intro acc
    cases hpt : processHashtagToken t with
    | none => simp [extractHashtagsAux, hpt, List.filterMap_cons, ih]
    | some u =>
      by_cases hmem : u ∈ acc
      · simp [extractHashtagsAux, hpt, List.filterMap_cons, hmem, dedupeByKeyAux, ih]
      · simp [extractHashtagsAux, hpt, List.filterMap_cons, hmem, dedupeByKeyAux, ih]

theorem extract_hashtags_eq_claim (text : String) :
    extract_hashtags text = claimHashtags text := by
  have hfun : processHashtagToken = claimHashtagToken :=
    funext processHashtagToken_eq_claim
  unfold extract_hashtags claimHashtags dedupeByKey
  rw [extractHashtagsAux_eq, hfun]
  rfl

/-- C7: for every text string, `extract_hashtags` returns exactly the
whitespace-separated tokens that start with a hash (as split, per the spec's
"keep only tokens starting with a hash"), stripped of the surrounding
punctuation characters, discarding tokens that after stripping are a lone
hash or shorter than two characters, deduplicated by exact case-sensitive
match keeping first occurrences; in particular the documented example
evaluates to the three hashtags. -/
theorem extract_hashtags_spec :
    (∀ text : String, extract_hashtags text = claimHashtags text) ∧
    extract_hashtags ("#blog, #blog! #news? text #end.") = ["#blog", "#news", "#end"] :=
  ⟨extract_hashtags_eq_claim, by decide⟩

/-!
## Lemmas about whitespace tokenisation and joining
-/

theorem splitWSAux_good : ∀ (cs acc : List Char), (∀ c ∈ acc, c ∉ pyWS) →
    ∀ t ∈ splitWSAux cs acc, t ≠ [] ∧ ∀ c ∈ t, c ∉ pyWS := by
  intro cs
  induction cs with
  | nil =>
    intro acc hacc t ht
    by_cases h : acc = []
    · simp [splitWSAux, h] at ht
    · simp [splitWSAux, h] at ht
      subst ht
      refine ⟨by simpa using h, ?_⟩
      intro c hc
      exact hacc c (List.mem_reverse.mp hc)
  | cons c cs ih =>
    intro acc hacc t ht
    by_cases hw : c ∈ pyWS
    · by_cases h : acc = []
      · rw [splitWSAux, if_pos hw, if_pos h] at ht
        exact ih [] (by simp) t ht
      · rw [splitWSAux, if_pos hw, if_neg h] at ht
        rcases List.mem_cons.mp ht with h1 | h2
        · subst h1
          refine ⟨by simpa using h, ?_⟩
          intro d hd
          exact hacc d (List.mem_reverse.mp hd)
        · exact ih [] (by simp) t h2
    · rw [splitWSAux, if_neg hw] at ht
      refine ih (c :: acc) ?_ t ht
      intro d hd
      rcases List.mem_cons.mp hd with h1 | h2
      · subst h1; exact hw
      · exact hacc d h2

theorem pySplitWS_good (l : List Char) :
    ∀ t ∈ pySplitWS l, t ≠ [] ∧ ∀ c ∈ t, c ∉ pyWS :=
  splitWSAux_good l [] (by simp)

theorem dropLeadingHashtagWords_false (l : List (List Char)) :
    dropLeadingHashtagWords false l = l := by
  induction l with
  | nil => rfl
  | cons w ws ih => simp [dropLeadingHashtagWords, ih]

theorem dropLeadingHashtagWords_true (l : List (List Char)) :
    dropLeadingHashtagWords true l =
      l.dropWhile (fun w => decide (w.head? = some '#')) := by
  induction l with
  | nil => rfl
  | cons w ws ih =>
    by_cases hw : w.head? = some '#'
    · simp [dropLeadingHashtagWords, List.dropWhile_cons, hw, ih]
    · simp [dropLeadingHashtagWords, List.dropWhile_cons, hw,
        dropLeadingHashtagWords_false]

theorem joinSep_cons_append (sep : List Char) (t : List Char)
    (ts : List (List Char)) : ∃ r, joinSep sep (t :: ts) = t ++ r := by
  cases ts with
  | nil => exact ⟨[], by simp [joinSep]⟩
  | cons t2 ts2 => exact ⟨sep ++ joinSep sep (t2 :: ts2), by simp [joinSep]⟩

theorem joinSep_ne_nil (sep : List Char) (t : List Char) (ts : List (List Char))
    (ht : t ≠ []) : joinSep sep (t :: ts) ≠ [] := by
  obtain ⟨r, hr⟩ := joinSep_cons_append sep t ts
  rw [hr]
  intro h
  exact ht (List.append_eq_nil.mp h).1

theorem rstripChars_no_strip {S : List Char} (l : List Char)
    (h : ∀ c ∈ l, c ∉ S) : rstripChars S l = l := by
  induction l with
  | nil => rfl
  | cons c cs ih =>
    rw [rstripChars_cons,
      if_neg (fun hc => h c (List.mem_cons_self c cs) hc.2),
      ih (fun d hd => h d (List.mem_cons_of_mem c hd))]

theorem rstripChars_append {S : List Char} (a b : List Char)
    (hb : rstripChars S b ≠ []) : rstripChars S (a ++ b) = a ++ rstripChars S b := by
  induction a with
  | nil => rfl
  | cons c a' ih =>
    have hne : rstripChars S (a' ++ b) ≠ [] := by
      rw [ih]
      intro h
      exact hb (List.append_eq_nil.mp h).2
    rw [List.cons_append, rstripChars_cons, if_neg (fun hc => hne hc.1), ih,
      List.cons_append]

theorem rstripChars_joinSp : ∀ ts : List (List Char),
    (∀ t ∈ ts, t ≠ [] ∧ ∀ c ∈ t, c ∉ pyWS) →
    rstripChars pyWS (joinSep [' '] ts) = joinSep [' '] ts := by
  intro ts
  induction ts with
  | nil => intro _; rfl
  | cons t ts2 ih =>
    intro h
    cases ts2 with
    | nil =>
      exact rstripChars_no_strip t (h t (List.mem_cons_self t [])).2
    | cons t2 ts3 =>
      have hJ : rstripChars pyWS (joinSep [' '] (t2 :: ts3)) = joinSep [' '] (t2 :: ts3) :=
        ih (fun u hu => h u (List.mem_cons_of_mem t hu))
      have hJne : joinSep [' '] (t2 :: ts3) ≠ [] :=
        joinSep_ne_nil [' '] t2 ts3 (h t2 (by simp)).1
      have hb : rstripChars pyWS (' ' :: joinSep [' '] (t2 :: ts3)) =
          ' ' :: joinSep [' '] (t2 :: ts3) := by
        rw [rstripChars_cons, if_neg (fun hc => (hJ ▸ hJne) hc.1), hJ]
      have hbne : rstripChars pyWS (' ' :: joinSep [' '] (t2 :: ts3)) ≠ [] := by
        rw [hb]; simp
      have : joinSep [' '] (t :: t2 :: ts3) = t ++ (' ' :: joinSep [' '] (t2 :: ts3)) := by
        simp [joinSep]
      rw [this, rstripChars_append t _ hbne, hb]

theorem lstripChars_shape (S : List Char) (l : List Char) :
    lstripChars S l = [] ∨ ∃ c t, lstripChars S l = c :: t ∧ c ∉ S := by
  induction l with
  | nil => exact Or.inl rfl
  | cons c cs ih =>
    by_cases hc : c ∈ S
    · simpa [lstripChars, List.dropWhile_cons, hc] using ih
    · exact Or.inr ⟨c, cs, by simp [lstripChars, List.dropWhile_cons, hc], hc⟩

theorem rstripChars_cons_shape (S : List Char) (c : Char) (t : List Char) :
    rstripChars S (c :: t) = [] ∨ rstripChars S (c :: t) = c :: rstripChars S t := by
  rw [rstripChars_cons]
  by_cases h : rstripChars S t = [] ∧ c ∈ S
  · exact Or.inl (if_pos h)
  · exact Or.inr (if_neg h)

theorem pyStrip_idem (l : List Char) : pyStrip (pyStrip l) = pyStrip l := by
  unfold pyStrip
  have habs : ∀ m : List Char, rstripChars pyWS (rstripChars pyWS m) = rstripChars pyWS m :=
    rstripChars_absorb (fun c hc => hc)
  rcases lstripChars_shape pyWS l with h | ⟨c, t, heq, hc⟩
  · rw [h]
    rfl
  · rw [heq]
    rcases rstripChars_cons_shape pyWS c t with h2 | h2
    · rw [h2]
      rfl
    · rw [h2, lstripChars_cons_not_mem hc, ← h2, habs]

theorem pyStrip_joinSp (t : List Char) (ts : List (List Char))
    (h : ∀ u ∈ t :: ts, u ≠ [] ∧ ∀ c ∈ u, c ∉ pyWS) :
    pyStrip (joinSep [' '] (t :: ts)) = joinSep [' '] (t :: ts) := by
  unfold pyStrip
  obtain ⟨r, hr⟩ := joinSep_cons_append [' '] t ts
  have ht := h t (by simp)
  obtain ⟨c, t', hct⟩ : ∃ c t', t = c :: t' := by
    cases t with
    | nil => exact absurd rfl ht.1
    | cons c t' => exact ⟨c, t', rfl⟩
  have hcnw : c ∉ pyWS := ht.2 c (by rw [hct]; simp)
  have hshape : joinSep [' '] (t :: ts) = c :: (t' ++ r) := by rw [hr, hct]; rfl
  rw [hshape, lstripChars_cons_not_mem hcnw, ← hshape]
  exact rstripChars_joinSp (t :: ts) h

theorem build_title_eq_claim (text : String) (maxLength : Nat) :
    build_title_from_text text maxLength = claimTitle text maxLength := by
  unfold build_title_from_text claimTitle
  generalize pySplitlines text.data [] = lines
  induction lines with
  | nil => simp [buildTitleLines, claimFirstLine]
  | cons rawLine rest ih =>
    by_cases hline : pyStrip rawLine = []
    · simpa [buildTitleLines, claimFirstLine, hline] using ih
    · have hgood := pySplitWS_good (pyStrip rawLine)
      have hdrop := dropLeadingHashtagWords_true (pySplitWS (pyStrip rawLine))
      by_cases hfe : (pySplitWS (pyStrip rawLine)).dropWhile
          (fun w => decide (w.head? = some '#')) = []
      · have hid := pyStrip_idem rawLine
        simp only [buildTitleLines, claimFirstLine]
        simp [hline, hdrop, hfe, hid]
        by_cases hlen : maxLength < (pyStrip rawLine).length
        · simp [hlen]
        · simp [hlen, List.take_of_length_le (Nat.le_of_not_lt hlen)]
      · obtain ⟨t0, ts0, hfcons⟩ : ∃ t0 ts0,
            (pySplitWS (pyStrip rawLine)).dropWhile
              (fun w => decide (w.head? = some '#')) = t0 :: ts0 := by
          cases hcase : (pySplitWS (pyStrip rawLine)).dropWhile
              (fun w => decide (w.head? = some '#')) with
          | nil => exact absurd hcase hfe
          | cons t0 ts0 => exact ⟨t0, ts0, rfl⟩
        have hfg : ∀ u ∈ t0 :: ts0, u ≠ [] ∧ ∀ c ∈ u, c ∉ pyWS := by
          intro u hu
          refine hgood u ?_
          have hsub := List.dropWhile_sublist
            (l := pySplitWS (pyStrip rawLine)) (p := fun w => decide (w.head? = some '#'))
          rw [hfcons] at hsub
          exact hsub.subset hu
        have hstrip := pyStrip_joinSp t0 ts0 hfg
        have hjne : joinSep [' '] (t0 :: ts0) ≠ [] :=
          joinSep_ne_nil [' '] t0 ts0 (hfg t0 (by simp)).1
        simp only [buildTitleLines, claimFirstLine]
        simp [hline, hdrop, hfe, hfcons, hstrip, hjne]
        by_cases hlen : maxLength < (joinSep [' '] (t0 :: ts0)).length
        · simp [hlen]
        · simp [hlen, List.take_of_length_le (Nat.le_of_not_lt hlen)]

/-- C8: for every text string and maximum length, `build_title_from_text`
takes the first non-blank line, drops its leading run of hash-tokens
(falling back to the whole trimmed line when nothing remains), rejoins the
remaining tokens with single spaces, hard-truncates to `maxLength` (default
60) characters without an ellipsis, and returns the literal placeholder when
the text has no non-blank line; in particular the documented examples
evaluate as stated. -/
theorem build_title_from_text_spec :
    (∀ (text : String) (maxLength : Nat),
      build_title_from_text text maxLength = claimTitle text maxLength) ∧
    build_title_from_text ("#blog #news My title line\nRest of the text") =
      "My title line" ∧
    build_title_from_text ("   \n   ") = "(no title)" :=
  ⟨build_title_eq_claim, by decide, by decide⟩

theorem flatten_map_eq_renderParas : ∀ ps : List (List Char),
    List.flatten (ps.map htmlPara) = claimRenderParas ps := by
  intro ps
  induction ps with
  | nil => rfl
  | cons p ps ih => simp [claimRenderParas, ih]

theorem text_to_html_eq_claim (text : String) : text_to_html text = claimHtml text := by
  unfold text_to_html claimHtml
  by_cases h : pyStrip text.data = []
  · simp [h]
  · simp [h, flatten_map_eq_renderParas]

/-- C9: for every text string, `text_to_html` trims surrounding whitespace,
returns the empty paragraph for an empty result, and otherwise splits on
blank-line boundaries, joins each paragraph's lines with a break tag, wraps
paragraphs in paragraph tags and concatenates them without separator; in
particular the documented examples evaluate as stated. -/
theorem text_to_html_spec :
    (∀ text : String, text_to_html text = claimHtml text) ∧
    text_to_html ("First line\nsecond line\n\nNext paragraph") =
      "<p>First line<br>second line</p><p>Next paragraph</p>" ∧
    text_to_html ("") = "<p></p>" :=
  ⟨text_to_html_eq_claim, by decide, by decide⟩

/-!
## Text extraction precedence (claim C1)
-/

/-- C1 counterexample: in an update whose message has `text` set to the empty
string and a non-empty caption, `extract_message_text` returns the caption,
not the empty string — the Python `or` treats the set-but-empty text field as
falsy, so the claimed empty-string precedence fails on the code. -/
theorem extract_message_text_empty_text_cex :
    extract_message_text updateTextEmptyCaption = some ("Caption text") ∧
    extract_message_text updateTextEmptyCaption ≠ some ("") :=
  ⟨rfl, by decide⟩

/-- C1 as amended: for every update with an effective message, an
empty-string `text` field falls through to the caption (whatever it is), and
the text is returned only when it is non-empty. -/
theorem extract_message_text_precedence (u : TelegramUpdate) (m : TgMessage)
    (hm : extract_message_entity u = some m) :
    (m.text = some ("") → extract_message_text u = m.caption) ∧
    (∀ s, m.text = some s → s ≠ "" → extract_message_text u = some s) := by
  have hx : extract_message_text u = pyOrStrOpt m.text m.caption := by
    unfold extract_message_text
    rw [hm]
  rw [hx]
  constructor
  · intro ht
    rw [ht]
    simp [pyOrStrOpt]
  · intro s hs hne
    rw [hs]
    simp [pyOrStrOpt, hne]

/-- Witness for the amended C1 at the concrete fixture. -/
theorem extract_message_text_precedence_witness :
    extract_message_text updateTextEmptyCaption = msgTextEmptyCaption.caption :=
  (extract_message_text_precedence updateTextEmptyCaption msgTextEmptyCaption rfl).1 rfl

/-!
## Deduplication lemmas for the media descriptor list (claim C2)
-/

theorem dedupeByKeyAux_sublist {α β : Type} [DecidableEq β] (key : α → β) :
    ∀ (l : List α) (seen : List β), (dedupeByKeyAux key seen l).Sublist l := by
  intro l
  induction l with
  | nil => intro seen; simp [dedupeByKeyAux]
  | cons x xs ih =>
    intro seen
    by_cases h : key x ∈ seen
    · simpa [dedupeByKeyAux, h] using (ih seen).cons x
    · simpa [dedupeByKeyAux, h] using (ih (key x :: seen)).cons₂ x

theorem dedupeByKeyAux_nodup {α β : Type} [DecidableEq β] (key : α → β) :
    ∀ (l : List α) (seen : List β),
      ((dedupeByKeyAux key seen l).map key).Nodup ∧
      ∀ b ∈ (dedupeByKeyAux key seen l).map key, b ∉ seen := by
  intro l
  induction l with
  | nil => intro seen; simp [dedupeByKeyAux]
  | cons x xs ih =>
    intro seen
    by_cases h : key x ∈ seen
    · simpa [dedupeByKeyAux, h] using ih seen
    · obtain ⟨ih1, ih2⟩ := ih (key x :: seen)
      constructor
      · simp only [dedupeByKeyAux, if_neg h, List.map_cons, List.nodup_cons]
        exact ⟨fun hmem => (ih2 _ hmem) (List.mem_cons_self _ _), ih1⟩
      · intro b hb
        simp only [dedupeByKeyAux, if_neg h, List.map_cons, List.mem_cons] at hb
        rcases hb with hb | hb
        · subst hb; exact h
        · intro hbseen
          exact (ih2 b hb) (List.mem_cons_of_mem _ hbseen)

theorem dedupeByKeyAux_covers {α β : Type} [DecidableEq β] (key : α → β) :
    ∀ (l : List α) (seen : List β) (c : α), c ∈ l → key c ∉ seen →
      ∃ e ∈ dedupeByKeyAux key seen l, key e = key c := by
  intro l
  induction l with
  | nil => intro seen c hc; exact absurd hc (List.not_mem_nil c)
  | cons x xs ih =>
    intro seen c hc hcs
    by_cases h : key x ∈ seen
    · rcases List.mem_cons.mp hc with hcx | hcxs
      · subst hcx; exact absurd h hcs
      · simpa [dedupeByKeyAux, h] using ih seen c hcxs hcs
    · rcases List.mem_cons.mp hc with hcx | hcxs
      · subst hcx
        exact ⟨c, by simp [dedupeByKeyAux, h], rfl⟩
      · by_cases hkey : key c = key x
        · exact ⟨x, by simp [dedupeByKeyAux, h], hkey.symm⟩
        · obtain ⟨e, he, hek⟩ := ih (key x :: seen) c hcxs
            (by simp [hkey, hcs])
          exact ⟨e, by simp [dedupeByKeyAux, h, he], hek⟩

theorem dedupeByKeyAux_first_wins {α β : Type} [DecidableEq β] (key : α → β) :
    ∀ (l1 : List α) (c : α) (l2 : List α) (seen : List β),
      key c ∉ seen → (∀ b ∈ l1, key b ≠ key c) →
      c ∈ dedupeByKeyAux key seen (l1 ++ c :: l2) := by
  intro l1
  induction l1 with
  | nil =>
    intro c l2 seen hcs _
    simp [dedupeByKeyAux, hcs]
  | cons b l1 ih =>
    intro c l2 seen hcs hb
    by_cases h : key b ∈ seen
    · simp only [List.cons_append, dedupeByKeyAux, if_pos h]
      exact ih c l2 seen hcs (fun d hd => hb d (List.mem_cons_of_mem b hd))
    · simp only [List.cons_append, dedupeByKeyAux, if_neg h]
      refine List.mem_cons_of_mem b (ih c l2 (key b :: seen) ?_
        (fun d hd => hb d (List.mem_cons_of_mem b hd)))
      intro hmem
      rcases List.mem_cons.mp hmem with heq | hmem2
      · exact hb b (List.mem_cons_self b l1) heq.symm
      · exact hcs hmem2

theorem foldl_max_area (ps : List TgPhotoSize) :
    ∀ p : TgPhotoSize,
      (ps.foldl (fun best q =>
        if best.width * best.height < q.width * q.height then q else best) p) ∈ p :: ps ∧
      ∀ q ∈ p :: ps, q.width * q.height ≤
        (ps.foldl (fun best q =>
          if best.width * best.height < q.width * q.height then q else best) p).width *
        (ps.foldl (fun best q =>
          if best.width * best.height < q.width * q.height then q else best) p).height := by
  induction ps with
  | nil =>
    intro p
    refine ⟨List.mem_cons_self p [], ?_⟩
    intro q hq
    rcases List.mem_cons.mp hq with hq | hq
    · subst hq; exact le_refl _
    · exact absurd hq (List.not_mem_nil q)
  | cons r ps ih =>
    intro p
    obtain ⟨ihm, ihb⟩ := ih (if p.width * p.height < r.width * r.height then r else p)
    constructor
    · simp only [List.foldl_cons]
      rcases List.mem_cons.mp ihm with hm | hm
      · rw [hm]
        by_cases hc : p.width * p.height < r.width * r.height
        · simp only [if_pos hc]
          exact List.mem_cons_of_mem p (List.mem_cons_self r ps)
        · simp only [if_neg hc]
          exact List.mem_cons_self p (r :: ps)
      · exact List.mem_cons_of_mem p (List.mem_cons_of_mem r hm)
    · intro q hq
      simp only [List.foldl_cons]
      have hq' : q = p ∨ q = r ∨ q ∈ ps := by
        rcases List.mem_cons.mp hq with h | h
        · exact Or.inl h
        · rcases List.mem_cons.mp h with h | h
          · exact Or.inr (Or.inl h)
          · exact Or.inr (Or.inr h)
      have hbound : ∀ s, s ∈ (if p.width * p.height < r.width * r.height then r
          else p) :: ps → s.width * s.height ≤ _ := ihb
      rcases hq' with h | h | h
      · subst h
        refine le_trans ?_ (ihb _ (List.mem_cons_self _ ps))
        by_cases hc : q.width * q.height < r.width * r.height
        · simp only [if_pos hc]
          exact le_of_lt hc
        · simp only [if_neg hc]
          exact le_refl _
      · subst h
        refine le_trans ?_ (ihb _ (List.mem_cons_self _ ps))
        by_cases hc : p.width * p.height < q.width * q.height
        · simp only [if_pos hc]
          exact le_refl _
        · simp only [if_neg hc]
          exact le_of_not_lt hc
      · exact ihb q (List.mem_cons_of_mem _ h)

/-- C2: for every message the spec-modelled `collect_supported_media`
returns descriptors whose kinds follow the fixed order photo, video,
animation, document with at most one descriptor per kind, with pairwise
distinct source ids, as a sublist of the kind-ordered candidates in which
every candidate's source id is represented and the first candidate of each
source id survives; any photo descriptor carries the id of the
largest-area variant chosen by the source-embedded
`find_photo_with_max_size` (which maximises width times height, first
occurrence winning ties), and a message with no media fields yields the
empty list. -/
theorem collect_supported_media_spec (msg : TgMessage) :
    ((collect_supported_media msg).map (fun m => m.media_type)).Sublist
      ["photo", "video", "animation", "document"] ∧
    ((collect_supported_media msg).map (fun m => m.file_id)).Nodup ∧
    (collect_supported_media msg).Sublist (mediaCandidates msg) ∧
    (∀ c ∈ mediaCandidates msg, ∃ e ∈ collect_supported_media msg,
      e.file_id = c.file_id) ∧
    (∀ (l1 : List TelegramMedia) (c : TelegramMedia) (l2 : List TelegramMedia),
      mediaCandidates msg = l1 ++ c :: l2 → (∀ b ∈ l1, b.file_id ≠ c.file_id) →
      c ∈ collect_supported_media msg) ∧
    (∀ d ∈ collect_supported_media msg, d.media_type = "photo" →
      ∃ p, find_photo_with_max_size msg = some p ∧ d.file_id = p.file_id) ∧
    (∀ ps p, msg.photo = some ps → find_photo_with_max_size msg = some p →
      p ∈ ps ∧ ∀ q ∈ ps, q.width * q.height ≤ p.width * p.height) ∧
    (msg.photo = none → msg.video = none → msg.animation = none →
      msg.document = none → collect_supported_media msg = []) := by
  have hsub : (collect_supported_media msg).Sublist (mediaCandidates msg) := by
    unfold collect_supported_media dedupeByKey
    exact dedupeByKeyAux_sublist (fun m => m.file_id) (mediaCandidates msg) []
  have hcand : ((mediaCandidates msg).map (fun m => m.media_type)).Sublist
      ["photo", "video", "animation", "document"] := by
    unfold mediaCandidates
    rcases hps : find_photo_with_max_size msg with _ | p <;>
      rcases hv : msg.video with _ | v <;>
        rcases ha : msg.animation with _ | a <;>
          rcases hd : msg.document with _ | d <;>
            simp
  refine ⟨?_, ?_, hsub, ?_, ?_, ?_, ?_, ?_⟩
  · exact (hsub.map (fun m => m.media_type)).trans hcand
  · exact (dedupeByKeyAux_nodup (fun m => m.file_id) (mediaCandidates msg) []).1
  · intro c hc
    exact dedupeByKeyAux_covers (fun m => m.file_id) (mediaCandidates msg) [] c hc
      (by simp)
  · intro l1 c l2 heq hne
    unfold collect_supported_media dedupeByKey
    rw [heq]
    exact dedupeByKeyAux_first_wins (fun m => m.file_id) l1 c l2 [] (by simp) hne
  · intro d hd htype
    have hdc : d ∈ mediaCandidates msg := hsub.subset hd
    unfold mediaCandidates at hdc
    simp only [List.mem_append] at hdc
    rcases hdc with ((h1 | h2) | h3) | h4
    · cases hps : find_photo_with_max_size msg with
      | none => rw [hps] at h1; exact absurd h1 (List.not_mem_nil d)
      | some p =>
        rw [hps] at h1
        simp at h1
        subst h1
        exact ⟨p, rfl, rfl⟩
    · cases hv : msg.video with
      | none => rw [hv] at h2; exact absurd h2 (List.not_mem_nil d)
      | some v =>
        rw [hv] at h2
        simp at h2
        subst h2
        simp at htype
    · cases ha : msg.animation with
      | none => rw [ha] at h3; exact absurd h3 (List.not_mem_nil d)
      | some a =>
        rw [ha] at h3
        simp at h3
        subst h3
        simp at htype
    · cases hdoc : msg.document with
      | none => rw [hdoc] at h4; exact absurd h4 (List.not_mem_nil d)
      | some dd =>
        rw [hdoc] at h4
        simp at h4
        subst h4
        simp at htype
  · intro ps p hps hfind
    unfold find_photo_with_max_size at hfind
    rw [hps] at hfind
    cases ps with
    | nil => simp at hfind
    | cons p0 rest =>
      simp at hfind
      subst hfind
      exact foldl_max_area rest p0
  · intro h1 h2 h3 h4
    simp [collect_supported_media, dedupeByKey, dedupeByKeyAux, mediaCandidates,
      find_photo_with_max_size, h1, h2, h3, h4]

/-- Witness for C2: a message without media fields yields the empty list. -/
theorem collect_supported_media_spec_witness :
    collect_supported_media msgNoMedia = [] :=
  (collect_supported_media_spec msgNoMedia).2.2.2.2.2.2.2 rfl rfl rfl rfl

/-- C3: for every update that reaches the hashtag checks (message present,
chat type accepted, content present, required hashtag passing), if the
extracted hashtags intersect both the configured allowlist and the
configured blocklist, the handler returns the silent blocklist rejection and
creates no post — the blocklist check runs after the allowlist check and
overrides it. -/
theorem blocklist_overrides_allowlist (env : Env) (st : Settings)
    (update : TelegramUpdate) (msg : TgMessage)
    (hmsg : extract_message_entity update = some msg)
    (hchat : chatTypeRejects st msg = false)
    (hcontent : noContentRejects msg (effText update) = false)
    (hreq : requiredRejects st (effHashtags update) = false)
    (al bl : List String)
    (hal : st.hashtag_allowlist = some al)
    (hbl : st.hashtag_blocklist = some bl)
    (hallow : ∃ tag ∈ al, tag ∈ effHashtags update)
    (hblock : ∃ tag ∈ bl, tag ∈ effHashtags update) :
    handle_telegram_update env st update = .ok (.filtered .blockedHashtag) := by
  have hA : allowlistRejects st (effHashtags update) = false := by
    obtain ⟨tag, htal, hth⟩ := hallow
    simp only [allowlistRejects, hal, decide_eq_false_iff_not]
    intro hcontra
    exact hcontra.2 tag htal hth
  have hB : blocklistRejects st (effHashtags update) = true := by
    obtain ⟨tag, htbl, hth⟩ := hblock
    simp only [blocklistRejects, hbl, decide_eq_true_eq]
    refine ⟨?_, ⟨tag, htbl, hth⟩⟩
    intro h
    rw [h] at htbl
    exact List.not_mem_nil tag htbl
  simp [handle_telegram_update, hmsg, hchat, hcontent, hreq, hA, hB]

/-- Witness for C3 at the documented example: hashtags news and spam,
allowlist containing news, blocklist containing spam. -/
theorem blocklist_overrides_allowlist_witness :
    handle_telegram_update envIdle stAllowBlock updateNewsSpam =
      .ok (.filtered .blockedHashtag) :=
  blocklist_overrides_allowlist envIdle stAllowBlock updateNewsSpam msgNewsSpam rfl
    (by decide) (by decide) (by decide) ["#news"] ["#spam"] rfl rfl
    ⟨"#news", by decide, by decide⟩ ⟨"#spam", by decide, by decide⟩

/-- C4: every update rejected by one of the content filters (no message,
chat type not allowed, no text and no media, required hashtag missing, no
allowlisted hashtag, or blocklisted hashtag present) makes the handler
return normally with a silent filter outcome: no exception and no post
creation. -/
theorem handle_filtered_silent (env : Env) (st : Settings) (update : TelegramUpdate)
    (h : extract_message_entity update = none ∨
      ∃ msg, extract_message_entity update = some msg ∧
        (chatTypeRejects st msg = true ∨
         noContentRejects msg (effText update) = true ∨
         requiredRejects st (effHashtags update) = true ∨
         allowlistRejects st (effHashtags update) = true ∨
         blocklistRejects st (effHashtags update) = true)) :
    ∃ r, handle_telegram_update env st update = .ok (.filtered r) := by
  rcases h with hnone | ⟨msg, hmsg, hdis⟩
  · exact ⟨.noMessage, by simp [handle_telegram_update, hnone]⟩
  · cases h1 : chatTypeRejects st msg with
    | true => exact ⟨.chatTypeNotAllowed, by simp [handle_telegram_update, hmsg, h1]⟩
    | false =>
      cases h2 : noContentRejects msg (effText update) with
      | true => exact ⟨.noContent, by simp [handle_telegram_update, hmsg, h1, h2]⟩
      | false =>
        cases h3 : requiredRejects st (effHashtags update) with
        | true =>
          exact ⟨.requiredHashtagMissing,
            by simp [handle_telegram_update, hmsg, h1, h2, h3]⟩
        | false =>
          cases h4 : allowlistRejects st (effHashtags update) with
          | true =>
            exact ⟨.noAllowedHashtag,
              by simp [handle_telegram_update, hmsg, h1, h2, h3, h4]⟩
          | false =>
            cases h5 : blocklistRejects st (effHashtags update) with
            | true =>
              exact ⟨.blockedHashtag,
                by simp [handle_telegram_update, hmsg, h1, h2, h3, h4, h5]⟩
            | false =>
              rcases hdis with hd | hd | hd | hd | hd <;> simp_all
  
/-- Witness for C4: a private-chat message is filtered silently under the
default settings. -/
theorem handle_filtered_silent_witness :
    ∃ r, handle_telegram_update envIdle {} updatePrivate = .ok (.filtered r) :=
  handle_filtered_silent envIdle {} updatePrivate
    (Or.inr ⟨msgPrivate, rfl, Or.inl (by decide)⟩)

/-- C5 evaluated on the code: when the only media item's URL resolution
raises, the failure is caught per item and the post is still created with an
empty attachment list and no media markup; but in a mixed update where the
photo fails and the later video uploads successfully, the handler raises
`AttributeError` (attribute access on the bare integer attachment id) and
never calls `create_wp_post`, contradicting the claim's "remaining items are
still processed, and create_wp_post is still called". -/
theorem media_failure_isolation_eval :
    handle_telegram_update envResolveRaises {} updateOnePhoto =
      .ok (.posted ("Photo post with error") ("<p>Photo post with error</p>") []) ∧
    handle_telegram_update envMixed {} updatePhotoVideo = .error .attributeError :=
  ⟨rfl, rfl⟩

/-- C6 evaluated on the code: in an accepted photo update whose resolution,
download and upload all succeed (upload returning attachment id 456), the
handler raises `AttributeError` instead of appending the id and creating the
post: `wordpress_api.upload_media_to_wp` returns a bare integer while
`app.py` treats it as an object with `id` and `source_url` fields. -/
theorem upload_success_attribute_error_eval :
    handle_telegram_update envUploadOk {} updatePhotoOk = .error .attributeError :=
  rfl

/-- C10: the webhook endpoint responds 403 Forbidden exactly when a
non-empty secret is configured and the path secret differs from it; with the
secret unset or empty every path secret is accepted and the update is
handled, the response reflecting the handler's outcome. -/
theorem telegram_webhook_spec (env : Env) (st : Settings) (secret : String)
    (update : TelegramUpdate) :
    (telegram_webhook env st secret update = .forbidden ↔
      ∃ e, st.telegram_webhook_secret = some e ∧ e ≠ "" ∧ secret ≠ e) ∧
    ((st.telegram_webhook_secret = none ∨ st.telegram_webhook_secret = some ("")) →
      telegram_webhook env st secret update =
        match handle_telegram_update env st update with
        | .ok _ => .okTrue
        | .error _ => .okFalse) := by
  cases hsec : st.telegram_webhook_secret with
  | none =>
    constructor
    · constructor
      · intro hf
        rw [telegram_webhook, hsec] at hf
        simp at hf
        cases hh : handle_telegram_update env st update <;> simp_all
      · rintro ⟨e, he, _, _⟩
        exact absurd he (by simp)
    · intro _
      rw [telegram_webhook, hsec]
      simp
  | some e =>
    by_cases hcond : e ≠ "" ∧ secret ≠ e
    · constructor
      · constructor
        · intro _
          exact ⟨e, rfl, hcond.1, hcond.2⟩
        · intro _
          rw [telegram_webhook, hsec]
          simp [hcond]
      · rintro (he | he)
        · exact absurd he (by simp)
        · exact absurd (Option.some.inj he) hcond.1
    · constructor
      · constructor
        · intro hf
          rw [telegram_webhook, hsec] at hf
          simp [hcond] at hf
          cases hh : handle_telegram_update env st update <;> simp_all
        · rintro ⟨e2, he2, h1, h2⟩
          have h0 : e = e2 := Option.some.inj he2
          subst h0
          exact absurd ⟨h1, h2⟩ hcond
      · intro _
        rw [telegram_webhook, hsec]
        simp [hcond]

/-- Witness for C10: a wrong path secret against a configured secret is
rejected with 403. -/
theorem telegram_webhook_spec_witness :
    telegram_webhook envIdle stSecret ("wrong_secret") { update_id := 9 } =
      .forbidden :=
  (telegram_webhook_spec envIdle stSecret ("wrong_secret") { update_id := 9 }).1.mpr
    ⟨"correct_secret", rfl, by decide, by decide⟩
